import Mathlib

/-!
Shallow embedding of the img2webp batch conversion engine
(`src/converter.py` together with the batch-building logic in
`src/ui/main_window.py`).

Conventions of the embedding:
* Python strings are Lean `String`s; byte streams that the code decodes
  with `errors='ignore'` are modelled as the already-decoded `String`.
* Python exceptions are modelled with `Except String`; the payload is the
  exception's `str(e)` message.  A Python `try/except Exception` block is
  a `match` on that `Except` value.
* Python `dict`s keyed by file path are association lists with
  insertion-order semantics (`dinsert` overwrites in place, appends fresh
  keys at the end), mirroring CPython dict behaviour.
* Python floats are modelled as exact rationals `ℚ`; `int(x)` on a
  non-negative value is rational floor, `round(x, 2)` is round-half-to-even
  at two decimals (`pyRound2`).
* The Qt signals `progress_updated`, `error_occurred`,
  `compression_complete` / `conversion_complete` are modelled as an event
  trace (`Event`); the moment a per-item result is stored in
  `self.results` is additionally marked in the trace with `Event.settled`
  so that temporal claims about "terminal status known" can be stated.
* External effects (spawning ffmpeg, reading file sizes, decoding images,
  encoding images) are abstracted as environment records (`VideoEnv`,
  `ImgEnv`) of pure functions; the code under test is everything it does
  around those calls.
-/

/-! ### String helpers mirroring `os.path` -/

/-- Characters `os.path` (ntpath) treats as path separators. -/
def isSepChar (c : Char) : Bool := c = '/' ∨ c = '\\'

/-- Characters of `os.path.basename p`: everything after the last separator. -/
def basenameChars (cs : List Char) : List Char :=
  cs.foldl (fun acc c => if isSepChar c then [] else acc ++ [c]) []

/-- Model of `os.path.basename`. -/
def basename (p : String) : String := String.mk (basenameChars p.data)

/-- Suffix of a character list starting at its last `'.'`, or `[]` if it has
no dot.  Used to model the extension part of `os.path.splitext`. -/
def extFrom : List Char → List Char
  | [] => []
  | c :: rest =>
      let r := extFrom rest
      if r.isEmpty then (if c = '.' then c :: rest else []) else r

/-- Model of `os.path.splitext(p)[1]`: the extension of the basename,
where a leading run of dots (hidden files like `.bashrc`) carries no
extension. -/
def splitextExt (p : String) : String :=
  let b := basenameChars p.data
  let stem := b.dropWhile (fun c => c = '.')
  String.mk (extFrom stem)

/-- Model of `os.path.splitext(p)[0]`: everything before the extension. -/
def splitextRoot (p : String) : String :=
  String.mk (p.data.take (p.data.length - (splitextExt p).data.length))

/-- Model of `str.lower()` (ASCII case folding, which covers every
extension string the program compares). -/
def strLower (s : String) : String := String.mk (s.data.map Char.toLower)

/-- Model of `os.path.join(dir, name)` for the shapes the program uses
(a directory and a plain file name). -/
def joinPath (d n : String) : String :=
  if d = "" then n else if d.endsWith "/" ∨ d.endsWith "\\" then d ++ n else d ++ "/" ++ n

/-! ### Extension classifiers (`converter.py` lines 224-236 and 261-273) -/

/-- The image allow-list built by the UI layer
(`main_window.py` line 576: `self.image_extensions = [...]`). -/
def image_extensions : List String :=
  [".png", ".jpg", ".jpeg", ".bmp", ".gif", ".tiff", ".tif"]

/-- `is_image_file(file_path, image_extensions)`:
`ext = os.path.splitext(file_path)[1].lower(); return ext in image_extensions`. -/
def is_image_file (file_path : String) (exts : List String) : Bool :=
  let ext := strLower (splitextExt file_path)
  exts.contains ext

/-- The hard-coded video allow-list (`converter.py` line 271). -/
def video_extensions : List String :=
  [".mp4", ".avi", ".mkv", ".mov", ".wmv", ".flv", ".webm", ".mpeg", ".mpg"]

/-- `is_video_file(file_path)` (`converter.py` lines 261-273). -/
def is_video_file (file_path : String) : Bool :=
  let ext := strLower (splitextExt file_path)
  video_extensions.contains ext

/-! ### Name resolver (`converter.py` lines 239-258 and 276-295) -/

/-- The candidate `f"{base_name}_{counter}.webp"` tried inside the
`while` loop of `generate_output_name`. -/
def webpCandidate (base : String) (counter : Nat) : String :=
  base ++ "_" ++ Nat.repr counter ++ ".webp"

/-- The candidate `f"{base_name}_{counter}_compressed.mp4"` tried inside
the `while` loop of `generate_video_output_name`. -/
def mp4Candidate (base : String) (counter : Nat) : String :=
  base ++ "_" ++ Nat.repr counter ++ "_compressed.mp4"

/-- The `while output_name in existing_names` loop shared by both name
resolvers, with the candidate template abstracted.  Python's loop always
terminates because successive candidates are pairwise distinct and the
name set is finite; here that is made explicit with fuel, and
`collisionLoop_not_mem` below shows the fuel `existing.length + 1` used
by the callers never runs out. -/
def collisionLoop (cand : Nat → String) (existing : List String) : Nat → Nat → String
  | 0, counter => cand counter
  | fuel+1, counter =>
      if cand counter ∈ existing then collisionLoop cand existing fuel (counter+1)
      else cand counter

/-- `generate_output_name(filename, existing_names)` (`converter.py` 239-258). -/
def generate_output_name (filename : String) (existing : List String) : String :=
  let base := splitextRoot filename
  let first := base ++ ".webp"
  if first ∈ existing then collisionLoop (webpCandidate base) existing (existing.length + 1) 1
  else first

/-- `generate_video_output_name(filename, existing_names)` (`converter.py` 276-295). -/
def generate_video_output_name (filename : String) (existing : List String) : String :=
  let base := splitextRoot filename
  let first := base ++ "_compressed.mp4"
  if first ∈ existing then collisionLoop (mp4Candidate base) existing (existing.length + 1) 1
  else first

/-- The batch-build loop of `main_window.py` (`add_files_to_list`, lines
160-167, and its video twin, lines 412-421): each resolved name is
appended to `existing_names` before the next file is resolved. -/
def resolveAll (gen : String → List String → String) (existing : List String) :
    List String → List String
  | [] => []
  | f :: fs =>
      let n := gen f existing
      n :: resolveAll gen (existing ++ [n]) fs

/-! ### Quality preset table (`converter.py` lines 56-60 and 100-102) -/

/-- The `self.quality_settings` dict of `VideoCompressionWorker.__init__`,
as a partial lookup; pairs are (crf, preset). -/
def quality_settings_lookup (q : String) : Option (Nat × String) :=
  if q = "high" then some (18, "slow")
  else if q = "medium" then some (23, "medium")
  else if q = "low" then some (28, "fast")
  else none

/-- `self.quality_settings.get(self.quality, self.quality_settings["medium"])`
(`converter.py` line 100). -/
def resolvedSettings (q : String) : Nat × String :=
  (quality_settings_lookup q).getD (23, "medium")

/-! ### Numeric helpers -/

/-- `int((index + 1) / total * 100)` for the progress percent
(`converter.py` lines 69 and 194): exact-rational floor of `k/N*100`,
i.e. `⌊100k/N⌋`, as truncation of a non-negative value. -/
def pyProgress (k total : Nat) : Nat := k * 100 / total

/-- Python's `round` on a value with fractional part: round half to even. -/
def roundHalfEven (q : ℚ) : ℤ :=
  let f := ⌊q⌋
  let r := q - f
  if r < 1/2 then f
  else if 1/2 < r then f + 1
  else if Even f then f else f + 1

/-- `round(x, 2)`: round half to even at two decimal places. -/
def pyRound2 (q : ℚ) : ℚ := (roundHalfEven (q * 100) : ℚ) / 100

/-! ### Per-item results and the event trace -/

/-- A Python result dict such as
`{'success': True, 'output': ..., 'input_size': ..., 'output_size': ...,
'compression_ratio': ...}` or `{'success': False, 'error': ...}`;
absent keys are `none`. -/
structure ItemResult where
  success : Bool
  output : Option String := none
  input_size : Option Nat := none
  output_size : Option Nat := none
  compression_ratio : Option ℚ := none
  error : Option String := none
deriving DecidableEq, Repr

/-- One observable step of a worker run.  `progress`, `errorEv` and
`complete` are the emitted Qt signals; `settled` marks the moment the
item's result is stored in `self.results` (its terminal status is known),
so that ordering claims can be stated over the trace. -/
inductive Event where
  | progress (percent : Nat) (msg : String)
  | errorEv (msg : String)
  | settled (path : String) (res : ItemResult)
  | complete (results : List (String × ItemResult))
deriving DecidableEq, Repr

/-- Insertion-ordered dict assignment `d[k] = v`. -/
def dinsert (k : String) (v : ItemResult) :
    List (String × ItemResult) → List (String × ItemResult)
  | [] => [(k, v)]
  | (k₀, v₀) :: rest => if k₀ = k then (k, v) :: rest else (k₀, v₀) :: dinsert k v rest

/-- Dict lookup `d[k]`. -/
def dlookup (k : String) : List (String × ItemResult) → Option ItemResult
  | [] => none
  | (k₀, v₀) :: rest => if k₀ = k then some v₀ else dlookup k rest

/-- The mutable state a worker's `run` threads through its loop:
the success/failure counters, `self.results`, and the emitted trace. -/
structure LoopState where
  okCount : Nat
  failedCount : Nat
  results : List (String × ItemResult)
  events : List Event
deriving Repr

def LoopState.initial : LoopState := ⟨0, 0, [], []⟩

/-! ### Video worker (`converter.py` lines 18-145) -/

/-- One element of `files_to_compress`: a dict with `path` and `output_path`. -/
structure VFileInfo where
  path : String
  output_path : String
deriving DecidableEq, Repr

/-- Outcome of `subprocess.Popen(cmd, ...)` + `communicate()`:
the process ran and exited with a code (stderr already decoded with
`errors='ignore'`), or raised `FileNotFoundError`, or raised some other
exception. -/
inductive ProcOutcome where
  | ran (returncode : Int) (stderr : String)
  | fileNotFound
  | raised (msg : String)

/-- Abstracted external world of `VideoCompressionWorker`:
`imageio_ffmpeg.get_ffmpeg_exe()` (may raise), the subprocess spawn keyed
by the full command line, and `os.path.getsize` (may raise). -/
structure VideoEnv where
  get_ffmpeg : Except String String
  run_process : List String → ProcOutcome
  getsize : String → Except String Nat

/-- The ffmpeg command line built at `converter.py` lines 106-115. -/
def ffmpegCmd (ffmpeg_path : String) (crf : Nat) (preset : String)
    (input_path output_path : String) : List String :=
  [ffmpeg_path, "-y",
   "-i", input_path,
   "-c:v", "libx264",
   "-crf", Nat.repr crf,
   "-preset", preset,
   "-c:a", "aac",
   "-b:a", "128k",
   output_path]

/-- `VideoCompressionWorker.compress_video` (`converter.py` lines 89-145).
An `Except.error` result is an exception escaping the method (only
`get_ffmpeg_exe`, line 104, sits outside its `try`); everything inside
the `try` is caught and folded into a result dict.  The explicit
`input_size = 0` guard models Python's `ZeroDivisionError` (whose
`str` is `"division by zero"`) raised by `output_size / input_size`. -/
def compress_video (w : VideoEnv) (quality : String)
    (input_path output_path : String) : Except String ItemResult :=
  let settings := resolvedSettings quality
  let crf := settings.1
  let preset := settings.2
  match w.get_ffmpeg with
  | Except.error e => Except.error e
  | Except.ok ffmpeg_path =>
  match w.run_process (ffmpegCmd ffmpeg_path crf preset input_path output_path) with
  | ProcOutcome.fileNotFound =>
      pure { success := false, error := some "未找到FFmpeg，请确保已安装并添加到系统PATH" }
  | ProcOutcome.raised e =>
      pure { success := false, error := some e }
  | ProcOutcome.ran rc stderr =>
      if rc = 0 then
        match w.getsize input_path with
        | Except.error e => pure { success := false, error := some e }
        | Except.ok input_size =>
          match w.getsize output_path with
          | Except.error e => pure { success := false, error := some e }
          | Except.ok output_size =>
            if input_size = 0 then
              pure { success := false, error := some "division by zero" }
            else
              let ratio : ℚ := (1 - (output_size : ℚ) / (input_size : ℚ)) * 100
              pure { success := true, output := some output_path,
                     input_size := some input_size, output_size := some output_size,
                     compression_ratio := some (pyRound2 ratio) }
      else
        pure { success := false, error := some ("FFmpeg错误: " ++ stderr.take 200) }

/-- One iteration of the `for index, file_info in enumerate(...)` loop of
`VideoCompressionWorker.run` (`converter.py` lines 64-85). -/
def videoStep (w : VideoEnv) (quality : String) (total index : Nat)
    (fi : VFileInfo) (s : LoopState) : LoopState :=
  let input_path := fi.path
  let output_path := fi.output_path
  let pct := pyProgress (index + 1) total
  let s := { s with events := s.events ++ [Event.progress pct ("正在压缩: " ++ basename input_path)] }
  match compress_video w quality input_path output_path with
  | Except.ok result =>
      if result.success then
        { s with okCount := s.okCount + 1,
                 results := dinsert input_path result s.results,
                 events := s.events ++ [Event.settled input_path result] }
      else
        { s with failedCount := s.failedCount + 1,
                 results := dinsert input_path result s.results,
                 events := s.events ++ [Event.settled input_path result,
                                        Event.errorEv (result.error.getD "未知错误")] }
  | Except.error e =>
      let result : ItemResult := { success := false, error := some e }
      { s with failedCount := s.failedCount + 1,
               results := dinsert input_path result s.results,
               events := s.events ++ [Event.settled input_path result,
                                      Event.errorEv ("压缩失败 " ++ basename input_path ++ ": " ++ e)] }

/-- The loop of `VideoCompressionWorker.run`, from a given index and state. -/
def videoRunAux (w : VideoEnv) (quality : String) (total : Nat) :
    Nat → List VFileInfo → LoopState → LoopState
  | _, [], s => s
  | index, fi :: rest, s =>
      videoRunAux w quality total (index + 1) rest (videoStep w quality total index fi s)

/-- `VideoCompressionWorker.run` (`converter.py` lines 62-87): iterate the
loop over the whole batch, then emit `compression_complete(self.results)`. -/
def VideoCompressionWorker.run (w : VideoEnv) (quality : String)
    (files : List VFileInfo) : LoopState :=
  let total := files.length
  let s := videoRunAux w quality total 0 files LoopState.initial
  { s with events := s.events ++ [Event.complete s.results] }

/-! ### Image worker (`converter.py` lines 148-211) -/

/-- A decoded PIL image, reduced to the two attributes the code inspects:
`img.mode` and whether `'transparency' in img.info`. -/
structure PILImage where
  mode : String
  hasTransparency : Bool
deriving DecidableEq, Repr

/-- The arguments of the `img.save(output_path, 'WEBP', quality=...,
lossless=False)` call, together with the (possibly mode-converted) image
it is invoked on. -/
structure SaveCall where
  img : PILImage
  path : String
  format : String
  quality : Nat
  lossless : Bool
deriving DecidableEq, Repr

/-- Abstracted external world of `ImageConversionWorker`: `Image.open`
(may raise) and `img.save` (may raise). -/
structure ImgEnv where
  openImage : String → Except String PILImage
  save : SaveCall → Except String Unit

/-- Lines 198-201 of `converter.py`: the alpha normalisation
(`if img.mode in ('RGBA', 'LA') or (img.mode == 'P' and 'transparency'
in img.info): img = img.convert('RGBA')`) followed by the save call. -/
def imageSaveCall (img : PILImage) (output_path : String) (quality : Nat) : SaveCall :=
  let img2 :=
    if img.mode = "RGBA" ∨ img.mode = "LA" ∨ (img.mode = "P" ∧ img.hasTransparency = true)
    then { img with mode := "RGBA" }
    else img
  { img := img2, path := output_path, format := "WEBP", quality := quality, lossless := false }

/-- The body of the `with Image.open(input_path) as img:` block
(`converter.py` lines 197-201); an `Except.error` is an exception that the
loop's `except` clause will catch. -/
def imageProcessItem (env : ImgEnv) (quality : Nat)
    (input_path output_path : String) : Except String Unit :=
  match env.openImage input_path with
  | Except.error e => Except.error e
  | Except.ok img => env.save (imageSaveCall img output_path quality)

/-- One element of `files_to_convert`: a dict with `path` and `output_name`. -/
structure IFileInfo where
  path : String
  output_name : String
deriving DecidableEq, Repr

/-- One iteration of the loop of `ImageConversionWorker.run`
(`converter.py` lines 188-209). -/
def imageStep (env : ImgEnv) (output_dir : String) (quality : Nat) (total index : Nat)
    (fi : IFileInfo) (s : LoopState) : LoopState :=
  let input_path := fi.path
  let output_path := joinPath output_dir fi.output_name
  let pct := pyProgress (index + 1) total
  let s := { s with events := s.events ++ [Event.progress pct ("正在转换: " ++ basename input_path)] }
  match imageProcessItem env quality input_path output_path with
  | Except.ok _ =>
      let result : ItemResult := { success := true, output := some output_path }
      { s with okCount := s.okCount + 1,
               results := dinsert input_path result s.results,
               events := s.events ++ [Event.settled input_path result] }
  | Except.error e =>
      let result : ItemResult := { success := false, error := some e }
      { s with failedCount := s.failedCount + 1,
               results := dinsert input_path result s.results,
               events := s.events ++ [Event.settled input_path result,
                                      Event.errorEv ("转换失败 " ++ basename input_path ++ ": " ++ e)] }

/-- The loop of `ImageConversionWorker.run`, from a given index and state. -/
def imageRunAux (env : ImgEnv) (output_dir : String) (quality : Nat) (total : Nat) :
    Nat → List IFileInfo → LoopState → LoopState
  | _, [], s => s
  | index, fi :: rest, s =>
      imageRunAux env output_dir quality total (index + 1) rest
        (imageStep env output_dir quality total index fi s)

/-- `ImageConversionWorker.run` (`converter.py` lines 186-211). -/
def ImageConversionWorker.run (env : ImgEnv) (output_dir : String) (quality : Nat)
    (files : List IFileInfo) : LoopState :=
  let total := files.length
  let s := imageRunAux env output_dir quality total 0 files LoopState.initial
  { s with events := s.events ++ [Event.complete s.results] }

/-! ### Derived bookkeeping used to state the claims -/

/-- The result `VideoCompressionWorker.run` records for one item: the dict
returned by `compress_video`, or — when the item's processing raised —
the `{'success': False, 'error': str(e)}` dict built in the `except` arm. -/
def videoItemResult (w : VideoEnv) (quality : String) (fi : VFileInfo) : ItemResult :=
  match compress_video w quality fi.path fi.output_path with
  | Except.ok r => r
  | Except.error e => { success := false, error := some e }

/-- The trace block one video item contributes to the run's event list. -/
def videoItemBlock (w : VideoEnv) (quality : String) (total index : Nat)
    (fi : VFileInfo) : List Event :=
  [Event.progress (pyProgress (index + 1) total) ("正在压缩: " ++ basename fi.path),
   Event.settled fi.path (videoItemResult w quality fi)]
  ++ (match compress_video w quality fi.path fi.output_path with
      | Except.ok r =>
          if r.success then [] else [Event.errorEv (r.error.getD "未知错误")]
      | Except.error e =>
          [Event.errorEv ("压缩失败 " ++ basename fi.path ++ ": " ++ e)])

/-- Concatenated trace blocks of a video batch starting at a given index. -/
def videoBlocks (w : VideoEnv) (quality : String) (total : Nat) :
    Nat → List VFileInfo → List Event
  | _, [] => []
  | index, fi :: rest =>
      videoItemBlock w quality total index fi ++ videoBlocks w quality total (index + 1) rest

/-- The result `ImageConversionWorker.run` records for one item. -/
def imageItemResult (env : ImgEnv) (output_dir : String) (quality : Nat)
    (fi : IFileInfo) : ItemResult :=
  match imageProcessItem env quality fi.path (joinPath output_dir fi.output_name) with
  | Except.ok _ => { success := true, output := some (joinPath output_dir fi.output_name) }
  | Except.error e => { success := false, error := some e }

/-- The trace block one image item contributes to the run's event list. -/
def imageItemBlock (env : ImgEnv) (output_dir : String) (quality : Nat)
    (total index : Nat) (fi : IFileInfo) : List Event :=
  [Event.progress (pyProgress (index + 1) total) ("正在转换: " ++ basename fi.path),
   Event.settled fi.path (imageItemResult env output_dir quality fi)]
  ++ (match imageProcessItem env quality fi.path (joinPath output_dir fi.output_name) with
      | Except.ok _ => []
      | Except.error e =>
          [Event.errorEv ("转换失败 " ++ basename fi.path ++ ": " ++ e)])

/-- Concatenated trace blocks of an image batch starting at a given index. -/
def imageBlocks (env : ImgEnv) (output_dir : String) (quality : Nat) (total : Nat) :
    Nat → List IFileInfo → List Event
  | _, [] => []
  | index, fi :: rest =>
      imageItemBlock env output_dir quality total index fi
        ++ imageBlocks env output_dir quality total (index + 1) rest

/-- The percent payloads of the progress events of a trace, in order. -/
def percentsOf (evs : List Event) : List Nat :=
  evs.filterMap (fun e => match e with
    | Event.progress p _ => some p
    | _ => none)

/-- Whether an event is the completion signal. -/
def isCompleteEv : Event → Bool
  | Event.complete _ => true
  | _ => false

/-- The ordering requirement of the spec sentence under test in C2: every
progress event is preceded (strictly) by some settled item.  The spec's
per-item form implies this weaker form, so refuting this refutes the spec
sentence. -/
def progressAfterTerminal (evs : List Event) : Prop :=
  ∀ i p m, evs.get? i = some (Event.progress p m) →
    ∃ j, j < i ∧ ∃ q r, evs.get? j = some (Event.settled q r)

/-! ### Concrete environments and digit helpers used in proofs -/

/-- Environment whose encoder always exits 0 and reports sizes 1000 / 400. -/
def wEnvA : VideoEnv :=
  { get_ffmpeg := Except.ok "ffmpeg"
    run_process := fun _ => ProcOutcome.ran 0 ""
    getsize := fun p => if p = "in.mp4" then Except.ok 1000 else Except.ok 400 }

/-- Environment whose encoder always exits 0 and reports sizes 1000 / 1200. -/
def wEnvB : VideoEnv :=
  { get_ffmpeg := Except.ok "ffmpeg"
    run_process := fun _ => ProcOutcome.ran 0 ""
    getsize := fun p => if p = "in.mp4" then Except.ok 1000 else Except.ok 1200 }

/-- Environment whose encoder always exits 1 with stderr `"boom"`. -/
def wEnvFail : VideoEnv :=
  { get_ffmpeg := Except.ok "ffmpeg"
    run_process := fun _ => ProcOutcome.ran 1 "boom"
    getsize := fun _ => Except.ok 5 }

/-- Environment where the encoder exits 0 but the input file is empty. -/
def wEnvZero : VideoEnv :=
  { get_ffmpeg := Except.ok "ffmpeg"
    run_process := fun _ => ProcOutcome.ran 0 ""
    getsize := fun p => if p = "in.mp4" then Except.ok 0 else Except.ok 7 }

/-- Video environment whose ffmpeg resolution itself raises (an uncaught
fault escaping `compress_video`). -/
def wEnvRaise : VideoEnv :=
  { get_ffmpeg := Except.error "boom"
    run_process := fun _ => ProcOutcome.ran 0 ""
    getsize := fun _ => Except.ok 1 }

/-- Image environment whose decoder always raises. -/
def iEnvRaise : ImgEnv :=
  { openImage := fun _ => Except.error "cannot identify image file"
    save := fun _ => Except.ok () }

/-- Image environment that decodes every path to an opaque RGB image and
always saves successfully. -/
def iEnvOk : ImgEnv :=
  { openImage := fun _ => Except.ok { mode := "RGB", hasTransparency := false }
    save := fun _ => Except.ok () }

/-- The decimal digit characters of `n`, most significant first (the list
`Nat.toDigits 10 n` produces, expressed by structural recursion on `n`). -/
def decDigits (n : Nat) : List Char :=
  if n < 10 then [Nat.digitChar n]
  else decDigits (n / 10) ++ [Nat.digitChar (n % 10)]
termination_by n
decreasing_by exact Nat.div_lt_self (by omega) (by omega)

/-- Numeric value of a list of decimal digit characters, most significant
first. -/
def decVal (cs : List Char) : Nat :=
  cs.foldl (fun a c => 10 * a + (c.toNat - 48)) 0

/-! ### Test environments used by witnesses and counterexamples -/

/-- C7: the video quality tier table is High → (18, slow), Medium →
(23, medium), Low → (28, fast), and any other tier string resolves to the
Medium parameters. -/
theorem spec_C7 (q : String) (hq1 : q ≠ "high") (hq2 : q ≠ "medium") (hq3 : q ≠ "low") :
    resolvedSettings "high" = (18, "slow")
    ∧ resolvedSettings "medium" = (23, "medium")
    ∧ resolvedSettings "low" = (28, "fast")
    ∧ resolvedSettings q = (23, "medium") := by
  refine ⟨by decide, by decide, by decide, ?_⟩
  simp [resolvedSettings, quality_settings_lookup, hq1, hq2, hq3]

theorem spec_C7_witness :
    ("ultra" : String) ≠ "high" ∧ resolvedSettings "ultra" = (23, "medium") :=
  ⟨by decide, (spec_C7 "ultra" (by decide) (by decide) (by decide)).2.2.2⟩

/-- C8: the extension classifiers accept exactly the paths whose
`splitext` suffix, lowercased, is in the fixed allow-list; `photo.JPG`
is an image, `clip.MKV` is a video, `notes.txt` is neither. -/
theorem spec_C8 :
    (∀ p, is_image_file p image_extensions = true ↔
        strLower (splitextExt p) ∈ [".png", ".jpg", ".jpeg", ".bmp", ".gif", ".tiff", ".tif"])
    ∧ (∀ p, is_video_file p = true ↔
        strLower (splitextExt p)
          ∈ [".mp4", ".avi", ".mkv", ".mov", ".wmv", ".flv", ".webm", ".mpeg", ".mpg"])
    ∧ is_image_file "photo.JPG" image_extensions = true
    ∧ is_video_file "photo.JPG" = false
    ∧ is_video_file "clip.MKV" = true
    ∧ is_image_file "clip.MKV" image_extensions = false
    ∧ is_image_file "notes.txt" image_extensions = false
    ∧ is_video_file "notes.txt" = false := by
  refine ⟨?_, ?_, by decide, by decide, by decide, by decide, by decide, by decide⟩
  · intro p
    simp [is_image_file, image_extensions, List.contains, List.elem_iff]
  · intro p
    simp [is_video_file, video_extensions, List.contains, List.elem_iff]

/-- C5: on a zero exit code with readable sizes and a non-empty input,
`compress_video` reports success with
`compression_ratio = round((1 - output_size/input_size) * 100, 2)`;
the sign of the ratio never turns the item into a failure. -/
theorem spec_C5 (w : VideoEnv) (q inp outp fp stderr : String) (isz osz : Nat)
    (hf : w.get_ffmpeg = Except.ok fp)
    (hr : ∀ c, w.run_process c = ProcOutcome.ran 0 stderr)
    (hi : w.getsize inp = Except.ok isz)
    (ho : w.getsize outp = Except.ok osz)
    (hpos : 0 < isz) :
    compress_video w q inp outp
      = Except.ok { success := true, output := some outp,
                    input_size := some isz, output_size := some osz,
                    compression_ratio := some (pyRound2 ((1 - (osz : ℚ) / (isz : ℚ)) * 100)) } := by
  have hz : isz ≠ 0 := Nat.pos_iff_ne_zero.mp hpos
  simp only [compress_video, hf, hr, hi, ho]
  simp [hz]
  rfl

theorem spec_C5_witness :
    (0 < 1000)
    ∧ compress_video wEnvA "medium" "in.mp4" "out.mp4"
        = Except.ok { success := true, output := some "out.mp4",
                      input_size := some 1000, output_size := some 400,
                      compression_ratio := some 60 }
    ∧ compress_video wEnvB "medium" "in.mp4" "out.mp4"
        = Except.ok { success := true, output := some "out.mp4",
                      input_size := some 1000, output_size := some 1200,
                      compression_ratio := some (-20) } := by
  refine ⟨by decide, ?_, ?_⟩
  · rw [spec_C5 wEnvA "medium" "in.mp4" "out.mp4" "ffmpeg" "" 1000 400 rfl
        (fun c => rfl) rfl rfl (by decide)]
    norm_num [pyRound2, roundHalfEven]
  · rw [spec_C5 wEnvB "medium" "in.mp4" "out.mp4" "ffmpeg" "" 1000 1200 rfl
        (fun c => rfl) rfl rfl (by decide)]
    norm_num [pyRound2, roundHalfEven]

/-- C6: the encoder command line is
`ffmpeg -y -i <input> -c:v libx264 -crf <CRF> -preset <PRESET> -c:a aac
-b:a 128k <output>`; a reported success implies exit code 0; a non-zero
exit code yields a failure whose diagnostic is the first 200 characters of
the captured stderr; a missing binary yields the dedicated
installation-guidance failure. -/
theorem spec_C6 (w : VideoEnv) (q inp outp fp : String)
    (hf : w.get_ffmpeg = Except.ok fp) :
    (ffmpegCmd fp (resolvedSettings q).1 (resolvedSettings q).2 inp outp
       = [fp, "-y", "-i", inp, "-c:v", "libx264",
          "-crf", Nat.repr (resolvedSettings q).1,
          "-preset", (resolvedSettings q).2,
          "-c:a", "aac", "-b:a", "128k", outp])
    ∧ (∀ rc stderr r,
         w.run_process (ffmpegCmd fp (resolvedSettings q).1 (resolvedSettings q).2 inp outp)
             = ProcOutcome.ran rc stderr →
         compress_video w q inp outp = Except.ok r → r.success = true → rc = 0)
    ∧ (∀ rc stderr,
         w.run_process (ffmpegCmd fp (resolvedSettings q).1 (resolvedSettings q).2 inp outp)
             = ProcOutcome.ran rc stderr → rc ≠ 0 →
         compress_video w q inp outp
           = Except.ok { success := false,
                         error := some ("FFmpeg错误: " ++ stderr.take 200) })
    ∧ (w.run_process (ffmpegCmd fp (resolvedSettings q).1 (resolvedSettings q).2 inp outp)
          = ProcOutcome.fileNotFound →
       compress_video w q inp outp
         = Except.ok { success := false,
                       error := some "未找到FFmpeg，请确保已安装并添加到系统PATH" }) := by
  refine ⟨rfl, ?_, ?_, ?_⟩
  · intro rc stderr r hrun hres hsucc
    by_contra hrc
    simp only [compress_video, hf, hrun, if_neg hrc] at hres
    have : r = { success := false, error := some ("FFmpeg错误: " ++ stderr.take 200) } := by
      simpa [pure, Except.pure] using hres.symm
    rw [this] at hsucc
    simp at hsucc
  · intro rc stderr hrun hrc
    simp only [compress_video, hf, hrun, if_neg hrc]
    rfl
  · intro hrun
    simp only [compress_video, hf, hrun]
    rfl

set_option maxRecDepth 4096 in
theorem spec_C6_witness :
    wEnvFail.get_ffmpeg = Except.ok "ffmpeg"
    ∧ compress_video wEnvFail "medium" "in.mp4" "out.mp4"
        = Except.ok { success := false, error := some ("FFmpeg错误: " ++ "boom") } := by
  refine ⟨rfl, ?_⟩
  have h := (spec_C6 wEnvFail "medium" "in.mp4" "out.mp4" "ffmpeg" rfl).2.2.1 1 "boom" rfl
    (by decide)
  rw [h]
  rfl

/-- C10: when the encoder exits 0 but the input file has size 0, the
division by zero raised while computing the compression ratio is caught
inside `compress_video` and folded into a `success = false` result
(message `"division by zero"`); the run records that failure and
completes instead of crashing. -/
theorem spec_C10 (w : VideoEnv) (q inp outp fp stderr : String) (osz : Nat)
    (hf : w.get_ffmpeg = Except.ok fp)
    (hr : ∀ c, w.run_process c = ProcOutcome.ran 0 stderr)
    (hi : w.getsize inp = Except.ok 0)
    (ho : w.getsize outp = Except.ok osz) :
    compress_video w q inp outp
      = Except.ok { success := false, error := some "division by zero" }
    ∧ (VideoCompressionWorker.run w q [⟨inp, outp⟩]).results
        = [(inp, { success := false, error := some "division by zero" })] := by
  have h1 : compress_video w q inp outp
      = Except.ok { success := false, error := some "division by zero" } := by
    simp only [compress_video, hf, hr, hi, ho]
    rfl
  refine ⟨h1, ?_⟩
  simp [VideoCompressionWorker.run, videoRunAux, videoStep, h1, LoopState.initial, dinsert]

theorem spec_C10_witness :
    wEnvZero.get_ffmpeg = Except.ok "ffmpeg"
    ∧ compress_video wEnvZero "medium" "in.mp4" "out.mp4"
        = Except.ok { success := false, error := some "division by zero" } :=
  ⟨rfl, (spec_C10 wEnvZero "medium" "in.mp4" "out.mp4" "ffmpeg" "" 7 rfl
      (fun _ => rfl) rfl rfl).1⟩

/-! ### Loop lemmas shared by the batch-runner claims -/

lemma dinsert_of_not_mem (k : String) (v : ItemResult) :
    ∀ d : List (String × ItemResult), k ∉ d.map Prod.fst → dinsert k v d = d ++ [(k, v)]
  | [], _ => rfl
  | (k₀, v₀) :: rest, h => by
      simp only [List.map_cons, List.mem_cons, not_or] at h
      have hne : ¬k₀ = k := fun hh => h.1 hh.symm
      simp only [dinsert, if_neg hne]
      rw [dinsert_of_not_mem k v rest h.2]
      simp

lemma videoStep_results (w : VideoEnv) (q : String) (total index : Nat)
    (fi : VFileInfo) (s : LoopState) :
    (videoStep w q total index fi s).results
      = dinsert fi.path (videoItemResult w q fi) s.results := by
  unfold videoStep videoItemResult
  cases h : compress_video w q fi.path fi.output_path with
  | ok r =>
      cases hs : r.success
      · simp [h, hs]
      · simp [h, hs]
  | error e => simp [h]

lemma videoStep_events (w : VideoEnv) (q : String) (total index : Nat)
    (fi : VFileInfo) (s : LoopState) :
    (videoStep w q total index fi s).events
      = s.events ++ videoItemBlock w q total index fi := by
  unfold videoStep videoItemBlock videoItemResult
  cases h : compress_video w q fi.path fi.output_path with
  | ok r =>
      cases hs : r.success
      · simp [h, hs]
      · simp [h, hs]
  | error e => simp [h]

lemma imageStep_results (env : ImgEnv) (dir : String) (q : Nat) (total index : Nat)
    (fi : IFileInfo) (s : LoopState) :
    (imageStep env dir q total index fi s).results
      = dinsert fi.path (imageItemResult env dir q fi) s.results := by
  unfold imageStep imageItemResult
  cases h : imageProcessItem env q fi.path (joinPath dir fi.output_name) with
  | ok r => simp [h]
  | error e => simp [h]

lemma imageStep_events (env : ImgEnv) (dir : String) (q : Nat) (total index : Nat)
    (fi : IFileInfo) (s : LoopState) :
    (imageStep env dir q total index fi s).events
      = s.events ++ imageItemBlock env dir q total index fi := by
  unfold imageStep imageItemBlock imageItemResult
  cases h : imageProcessItem env q fi.path (joinPath dir fi.output_name) with
  | ok r => simp [h]
  | error e => simp [h]

lemma videoRunAux_events (w : VideoEnv) (q : String) (total : Nat) :
    ∀ (files : List VFileInfo) (index : Nat) (s : LoopState),
      (videoRunAux w q total index files s).events
        = s.events ++ videoBlocks w q total index files := by
  intro files
  induction files with
  | nil => intro index s; simp [videoRunAux, videoBlocks]
  | cons fi rest ih =>
      intro index s
      rw [videoRunAux, ih, videoStep_events]
      simp [videoBlocks]

lemma imageRunAux_events (env : ImgEnv) (dir : String) (q : Nat) (total : Nat) :
    ∀ (files : List IFileInfo) (index : Nat) (s : LoopState),
      (imageRunAux env dir q total index files s).events
        = s.events ++ imageBlocks env dir q total index files := by
  intro files
  induction files with
  | nil => intro index s; simp [imageRunAux, imageBlocks]
  | cons fi rest ih =>
      intro index s
      rw [imageRunAux, ih, imageStep_events]
      simp [imageBlocks]

lemma videoRunAux_results (w : VideoEnv) (q : String) (total : Nat) :
    ∀ (files : List VFileInfo) (index : Nat) (s : LoopState),
      (∀ fi ∈ files, fi.path ∉ s.results.map Prod.fst) →
      (files.map VFileInfo.path).Nodup →
      (videoRunAux w q total index files s).results
        = s.results ++ files.map (fun fi => (fi.path, videoItemResult w q fi)) := by
  intro files
  induction files with
  | nil => intro index s _ _; simp [videoRunAux]
  | cons fi rest ih =>
      intro index s hdisj hnd
      simp only [List.map_cons, List.nodup_cons] at hnd
      rw [videoRunAux, ih _ _ ?_ hnd.2]
      · rw [videoStep_results,
            dinsert_of_not_mem _ _ _ (hdisj fi (List.mem_cons_self _ _))]
        simp
      · intro g hg
        rw [videoStep_results,
            dinsert_of_not_mem _ _ _ (hdisj fi (List.mem_cons_self _ _))]
        simp only [List.map_append, List.mem_append, List.map_cons]
        rintro (hgl | hgr)
        · exact hdisj g (List.mem_cons_of_mem _ hg) hgl
        · have : g.path = fi.path := by simpa using hgr
          exact hnd.1 (this ▸ List.mem_map_of_mem VFileInfo.path hg)

lemma imageRunAux_results (env : ImgEnv) (dir : String) (q : Nat) (total : Nat) :
    ∀ (files : List IFileInfo) (index : Nat) (s : LoopState),
      (∀ fi ∈ files, fi.path ∉ s.results.map Prod.fst) →
      (files.map IFileInfo.path).Nodup →
      (imageRunAux env dir q total index files s).results
        = s.results ++ files.map (fun fi => (fi.path, imageItemResult env dir q fi)) := by
  intro files
  induction files with
  | nil => intro index s _ _; simp [imageRunAux]
  | cons fi rest ih =>
      intro index s hdisj hnd
      simp only [List.map_cons, List.nodup_cons] at hnd
      rw [imageRunAux, ih _ _ ?_ hnd.2]
      · rw [imageStep_results,
            dinsert_of_not_mem _ _ _ (hdisj fi (List.mem_cons_self _ _))]
        simp
      · intro g hg
        rw [imageStep_results,
            dinsert_of_not_mem _ _ _ (hdisj fi (List.mem_cons_self _ _))]
        simp only [List.map_append, List.mem_append, List.map_cons]
        rintro (hgl | hgr)
        · exact hdisj g (List.mem_cons_of_mem _ hg) hgl
        · have : g.path = fi.path := by simpa using hgr
          exact hnd.1 (this ▸ List.mem_map_of_mem IFileInfo.path hg)

lemma dlookup_map_of_mem {α : Type} (pathOf : α → String) (f : α → ItemResult) :
    ∀ (files : List α) (fi : α), fi ∈ files → (files.map pathOf).Nodup →
      dlookup (pathOf fi) (files.map (fun g => (pathOf g, f g))) = some (f fi) := by
  intro files
  induction files with
  | nil => intro fi h _; simp at h
  | cons g rest ih =>
      intro fi hmem hnd
      simp only [List.map_cons, List.nodup_cons] at hnd
      rcases List.mem_cons.mp hmem with h | h
      · subst h; simp [dlookup]
      · have hne : pathOf g ≠ pathOf fi := by
          intro hh
          exact hnd.1 (hh ▸ List.mem_map_of_mem pathOf h)
        simp only [List.map_cons, dlookup, if_neg hne]
        exact ih fi h hnd.2

lemma videoRun_results (w : VideoEnv) (q : String) (files : List VFileInfo)
    (hv : (files.map VFileInfo.path).Nodup) :
    (VideoCompressionWorker.run w q files).results
      = files.map (fun fi => (fi.path, videoItemResult w q fi)) := by
  unfold VideoCompressionWorker.run
  simp only []
  rw [videoRunAux_results w q files.length files 0 LoopState.initial (by simp [LoopState.initial]) hv]
  simp [LoopState.initial]

lemma imageRun_results (env : ImgEnv) (dir : String) (q : Nat) (files : List IFileInfo)
    (hv : (files.map IFileInfo.path).Nodup) :
    (ImageConversionWorker.run env dir q files).results
      = files.map (fun fi => (fi.path, imageItemResult env dir q fi)) := by
  unfold ImageConversionWorker.run
  simp only []
  rw [imageRunAux_results env dir q files.length files 0 LoopState.initial
      (by simp [LoopState.initial]) hv]
  simp [LoopState.initial]

/-- C1: on a batch with distinct source paths (which the batch builder
guarantees by construction), both run loops finish all items: the result
map has exactly one entry per submitted item keyed by its source path,
and an uncaught exception while processing one item is converted into a
`success = false` entry for that item alone. -/
theorem spec_C1 (w : VideoEnv) (q : String) (files : List VFileInfo)
    (env : ImgEnv) (dir : String) (iq : Nat) (ifiles : List IFileInfo)
    (hv : (files.map VFileInfo.path).Nodup)
    (hmg : (ifiles.map IFileInfo.path).Nodup) :
    ((VideoCompressionWorker.run w q files).results.map Prod.fst = files.map VFileInfo.path
     ∧ ∀ fi ∈ files, ∀ e, compress_video w q fi.path fi.output_path = Except.error e →
         dlookup fi.path (VideoCompressionWorker.run w q files).results
           = some { success := false, error := some e })
    ∧ ((ImageConversionWorker.run env dir iq ifiles).results.map Prod.fst
          = ifiles.map IFileInfo.path
       ∧ ∀ fi ∈ ifiles, ∀ e,
           imageProcessItem env iq fi.path (joinPath dir fi.output_name) = Except.error e →
           dlookup fi.path (ImageConversionWorker.run env dir iq ifiles).results
             = some { success := false, error := some e }) := by
  refine ⟨⟨?_, ?_⟩, ?_, ?_⟩
  · rw [videoRun_results w q files hv]
    simp [Function.comp]
  · intro fi hfi e he
    rw [videoRun_results w q files hv,
        dlookup_map_of_mem VFileInfo.path (videoItemResult w q) files fi hfi hv]
    unfold videoItemResult
    rw [he]
  · rw [imageRun_results env dir iq ifiles hmg]
    simp [Function.comp]
  · intro fi hfi e he
    rw [imageRun_results env dir iq ifiles hmg,
        dlookup_map_of_mem IFileInfo.path (imageItemResult env dir iq) ifiles fi hfi hmg]
    unfold imageItemResult
    rw [he]

theorem spec_C1_witness :
    (([⟨"a.mp4", "oa.mp4"⟩, ⟨"b.mp4", "ob.mp4"⟩] : List VFileInfo).map VFileInfo.path).Nodup
    ∧ dlookup "a.mp4"
        (VideoCompressionWorker.run wEnvRaise "medium"
          [⟨"a.mp4", "oa.mp4"⟩, ⟨"b.mp4", "ob.mp4"⟩]).results
        = some { success := false, error := some "boom" }
    ∧ dlookup "p.png"
        (ImageConversionWorker.run iEnvRaise "out" 85 [⟨"p.png", "p.webp"⟩]).results
        = some { success := false, error := some "cannot identify image file" } :=
  ⟨by decide,
   (spec_C1 wEnvRaise "medium" [⟨"a.mp4", "oa.mp4"⟩, ⟨"b.mp4", "ob.mp4"⟩]
       iEnvRaise "out" 85 [⟨"p.png", "p.webp"⟩] (by decide) (by decide)).1.2
     ⟨"a.mp4", "oa.mp4"⟩ (by decide) "boom" rfl,
   (spec_C1 wEnvRaise "medium" [⟨"a.mp4", "oa.mp4"⟩, ⟨"b.mp4", "ob.mp4"⟩]
       iEnvRaise "out" 85 [⟨"p.png", "p.webp"⟩] (by decide) (by decide)).2.2
     ⟨"p.png", "p.webp"⟩ (by decide) "cannot identify image file" rfl⟩

/-- C2 counterexample: in a one-item run the first emitted event is
already a progress event, with no settled item before it, so the claim
that every progress event follows its item's terminal status fails. -/
theorem spec_C2_counterexample :
    ¬ progressAfterTerminal
        (VideoCompressionWorker.run wEnvFail "medium" [⟨"a.mp4", "out.mp4"⟩]).events := by
  intro hclaim
  have h0 : (VideoCompressionWorker.run wEnvFail "medium"
      [⟨"a.mp4", "out.mp4"⟩]).events.get? 0
      = some (Event.progress 100 "正在压缩: a.mp4") := by decide
  obtain ⟨j, hj, -⟩ := hclaim 0 100 "正在压缩: a.mp4" h0
  omega

lemma videoItemBlock_countP (w : VideoEnv) (q : String) (total index : Nat)
    (fi : VFileInfo) :
    (videoItemBlock w q total index fi).countP isCompleteEv = 0 := by
  unfold videoItemBlock
  cases h : compress_video w q fi.path fi.output_path with
  | ok r =>
      cases hs : r.success <;>
        simp [isCompleteEv, List.countP_cons, List.countP_append, List.countP_nil]
  | error e =>
      simp [isCompleteEv, List.countP_cons, List.countP_append, List.countP_nil]

lemma videoBlocks_countP (w : VideoEnv) (q : String) (total : Nat) :
    ∀ (files : List VFileInfo) (index : Nat),
      (videoBlocks w q total index files).countP isCompleteEv = 0 := by
  intro files
  induction files with
  | nil => intro index; simp [videoBlocks]
  | cons fi rest ih =>
      intro index
      simp [videoBlocks, List.countP_append, videoItemBlock_countP, ih]

lemma imageItemBlock_countP (env : ImgEnv) (dir : String) (q : Nat) (total index : Nat)
    (fi : IFileInfo) :
    (imageItemBlock env dir q total index fi).countP isCompleteEv = 0 := by
  unfold imageItemBlock
  cases h : imageProcessItem env q fi.path (joinPath dir fi.output_name) with
  | ok r => simp [isCompleteEv, List.countP_cons, List.countP_append, List.countP_nil]
  | error e => simp [isCompleteEv, List.countP_cons, List.countP_append, List.countP_nil]

lemma imageBlocks_countP (env : ImgEnv) (dir : String) (q : Nat) (total : Nat) :
    ∀ (files : List IFileInfo) (index : Nat),
      (imageBlocks env dir q total index files).countP isCompleteEv = 0 := by
  intro files
  induction files with
  | nil => intro index; simp [imageBlocks]
  | cons fi rest ih =>
      intro index
      simp [imageBlocks, List.countP_append, imageItemBlock_countP, ih]

lemma videoRun_events (w : VideoEnv) (q : String) (files : List VFileInfo) :
    (VideoCompressionWorker.run w q files).events
      = videoBlocks w q files.length 0 files
        ++ [Event.complete (VideoCompressionWorker.run w q files).results] := by
  unfold VideoCompressionWorker.run
  simp only []
  rw [videoRunAux_events]
  simp [LoopState.initial]

lemma imageRun_events (env : ImgEnv) (dir : String) (q : Nat) (files : List IFileInfo) :
    (ImageConversionWorker.run env dir q files).events
      = imageBlocks env dir q files.length 0 files
        ++ [Event.complete (ImageConversionWorker.run env dir q files).results] := by
  unfold ImageConversionWorker.run
  simp only []
  rw [imageRunAux_events]
  simp [LoopState.initial]

/-- C2 amended: the trace of a run factors into one block per item, in
item order, each block emitting the item's progress event strictly BEFORE
the item is processed and its terminal status recorded; the completion
event is emitted exactly once, as the final event, after every item's
terminal status. -/
theorem spec_C2_amended (w : VideoEnv) (q : String) (files : List VFileInfo)
    (env : ImgEnv) (dir : String) (iq : Nat) (ifiles : List IFileInfo) :
    ((VideoCompressionWorker.run w q files).events
        = videoBlocks w q files.length 0 files
          ++ [Event.complete (VideoCompressionWorker.run w q files).results]
     ∧ (VideoCompressionWorker.run w q files).events.countP isCompleteEv = 1
     ∧ (VideoCompressionWorker.run w q files).events.getLast?
         = some (Event.complete (VideoCompressionWorker.run w q files).results))
    ∧ ((ImageConversionWorker.run env dir iq ifiles).events
        = imageBlocks env dir iq ifiles.length 0 ifiles
          ++ [Event.complete (ImageConversionWorker.run env dir iq ifiles).results]
     ∧ (ImageConversionWorker.run env dir iq ifiles).events.countP isCompleteEv = 1
     ∧ (ImageConversionWorker.run env dir iq ifiles).events.getLast?
         = some (Event.complete (ImageConversionWorker.run env dir iq ifiles).results)) := by
  refine ⟨⟨videoRun_events w q files, ?_, ?_⟩, imageRun_events env dir iq ifiles, ?_, ?_⟩
  · rw [videoRun_events w q files]
    simp [List.countP_append, videoBlocks_countP, isCompleteEv, List.countP_cons]
  · rw [videoRun_events w q files]
    simp
  · rw [imageRun_events env dir iq ifiles]
    simp [List.countP_append, imageBlocks_countP, isCompleteEv, List.countP_cons]
  · rw [imageRun_events env dir iq ifiles]
    simp

lemma videoItemBlock_percents (w : VideoEnv) (q : String) (total index : Nat)
    (fi : VFileInfo) :
    percentsOf (videoItemBlock w q total index fi) = [pyProgress (index + 1) total] := by
  unfold videoItemBlock
  cases h : compress_video w q fi.path fi.output_path with
  | ok r => cases hs : r.success <;> simp [percentsOf]
  | error e => simp [percentsOf]

lemma imageItemBlock_percents (env : ImgEnv) (dir : String) (q : Nat) (total index : Nat)
    (fi : IFileInfo) :
    percentsOf (imageItemBlock env dir q total index fi) = [pyProgress (index + 1) total] := by
  unfold imageItemBlock
  cases h : imageProcessItem env q fi.path (joinPath dir fi.output_name) with
  | ok r => simp [percentsOf]
  | error e => simp [percentsOf]

lemma videoBlocks_percents (w : VideoEnv) (q : String) (total : Nat) :
    ∀ (files : List VFileInfo) (index : Nat),
      percentsOf (videoBlocks w q total index files)
        = (List.range files.length).map (fun i => pyProgress (index + 1 + i) total) := by
  intro files
  induction files with
  | nil => intro index; simp [videoBlocks, percentsOf]
  | cons fi rest ih =>
      intro index
      have : percentsOf (videoBlocks w q total index (fi :: rest))
          = percentsOf (videoItemBlock w q total index fi)
            ++ percentsOf (videoBlocks w q total (index + 1) rest) := by
        simp [videoBlocks, percentsOf, List.filterMap_append]
      rw [this, videoItemBlock_percents, ih]
      rw [List.length_cons, List.range_succ_eq_map, List.map_cons, List.map_map,
          List.singleton_append]
      congr 1
      refine List.map_congr_left ?_
      intro i hi
      simp only [Function.comp_apply]
      exact congrArg (fun t => pyProgress t total) (by omega)

lemma imageBlocks_percents (env : ImgEnv) (dir : String) (q : Nat) (total : Nat) :
    ∀ (files : List IFileInfo) (index : Nat),
      percentsOf (imageBlocks env dir q total index files)
        = (List.range files.length).map (fun i => pyProgress (index + 1 + i) total) := by
  intro files
  induction files with
  | nil => intro index; simp [imageBlocks, percentsOf]
  | cons fi rest ih =>
      intro index
      have : percentsOf (imageBlocks env dir q total index (fi :: rest))
          = percentsOf (imageItemBlock env dir q total index fi)
            ++ percentsOf (imageBlocks env dir q total (index + 1) rest) := by
        simp [imageBlocks, percentsOf, List.filterMap_append]
      rw [this, imageItemBlock_percents, ih]
      rw [List.length_cons, List.range_succ_eq_map, List.map_cons, List.map_map,
          List.singleton_append]
      congr 1
      refine List.map_congr_left ?_
      intro i hi
      simp only [Function.comp_apply]
      exact congrArg (fun t => pyProgress t total) (by omega)

lemma videoRun_percents (w : VideoEnv) (q : String) (files : List VFileInfo) :
    percentsOf (VideoCompressionWorker.run w q files).events
      = (List.range files.length).map (fun i => pyProgress (i + 1) files.length) := by
  rw [videoRun_events w q files]
  have : percentsOf (videoBlocks w q files.length 0 files
      ++ [Event.complete (VideoCompressionWorker.run w q files).results])
      = percentsOf (videoBlocks w q files.length 0 files) := by
    simp [percentsOf, List.filterMap_append]
  rw [this, videoBlocks_percents]
  apply List.map_congr_left
  intro i _
  congr 1
  omega

lemma imageRun_percents (env : ImgEnv) (dir : String) (q : Nat) (files : List IFileInfo) :
    percentsOf (ImageConversionWorker.run env dir q files).events
      = (List.range files.length).map (fun i => pyProgress (i + 1) files.length) := by
  rw [imageRun_events env dir q files]
  have : percentsOf (imageBlocks env dir q files.length 0 files
      ++ [Event.complete (ImageConversionWorker.run env dir q files).results])
      = percentsOf (imageBlocks env dir q files.length 0 files) := by
    simp [percentsOf, List.filterMap_append]
  rw [this, imageBlocks_percents]
  apply List.map_congr_left
  intro i _
  congr 1
  omega

lemma pyProgress_mono (total : Nat) {a b : Nat} (h : a ≤ b) :
    pyProgress a total ≤ pyProgress b total :=
  Nat.div_le_div_right (Nat.mul_le_mul_right 100 h)

lemma pyProgress_last (total : Nat) (h : 0 < total) : pyProgress total total = 100 := by
  unfold pyProgress
  exact Nat.mul_div_cancel_left 100 h

/-- C3 amended: a run over N items emits exactly N progress events, the
k-th carrying `percent = ⌊100·k/N⌋` (the `int(...)` truncation the code
performs, not `round`); the sequence is non-decreasing and ends at 100. -/
theorem spec_C3_amended (w : VideoEnv) (q : String) (files : List VFileInfo)
    (env : ImgEnv) (dir : String) (iq : Nat) (ifiles : List IFileInfo)
    (hne : files ≠ []) (hine : ifiles ≠ []) :
    (percentsOf (VideoCompressionWorker.run w q files).events
       = (List.range files.length).map (fun i => pyProgress (i + 1) files.length)
     ∧ List.Pairwise (fun a b => a ≤ b)
         (percentsOf (VideoCompressionWorker.run w q files).events)
     ∧ (percentsOf (VideoCompressionWorker.run w q files).events).get? (files.length - 1)
         = some 100)
    ∧ (percentsOf (ImageConversionWorker.run env dir iq ifiles).events
       = (List.range ifiles.length).map (fun i => pyProgress (i + 1) ifiles.length)
     ∧ List.Pairwise (fun a b => a ≤ b)
         (percentsOf (ImageConversionWorker.run env dir iq ifiles).events)
     ∧ (percentsOf (ImageConversionWorker.run env dir iq ifiles).events).get? (ifiles.length - 1)
         = some 100) := by
  have hlen : 0 < files.length := List.length_pos.mpr hne
  have hilen : 0 < ifiles.length := List.length_pos.mpr hine
  refine ⟨⟨videoRun_percents w q files, ?_, ?_⟩,
          imageRun_percents env dir iq ifiles, ?_, ?_⟩
  · rw [videoRun_percents w q files]
    exact List.Pairwise.map _ (fun a b hab => pyProgress_mono files.length (by omega))
      (List.pairwise_lt_range files.length)
  · rw [videoRun_percents w q files, List.get?_map,
        List.get?_range (by omega : files.length - 1 < files.length)]
    have harith : files.length - 1 + 1 = files.length := by omega
    simp [harith, pyProgress_last files.length hlen]
  · rw [imageRun_percents env dir iq ifiles]
    exact List.Pairwise.map _ (fun a b hab => pyProgress_mono ifiles.length (by omega))
      (List.pairwise_lt_range ifiles.length)
  · rw [imageRun_percents env dir iq ifiles, List.get?_map,
        List.get?_range (by omega : ifiles.length - 1 < ifiles.length)]
    have harith : ifiles.length - 1 + 1 = ifiles.length := by omega
    simp [harith, pyProgress_last ifiles.length hilen]

theorem spec_C3_amended_witness :
    (([⟨"a.mp4", "o1"⟩, ⟨"b.mp4", "o2"⟩, ⟨"c.mp4", "o3"⟩] : List VFileInfo) ≠ [])
    ∧ percentsOf (VideoCompressionWorker.run wEnvFail "medium"
        [⟨"a.mp4", "o1"⟩, ⟨"b.mp4", "o2"⟩, ⟨"c.mp4", "o3"⟩]).events = [33, 66, 100]
    ∧ percentsOf (ImageConversionWorker.run iEnvOk "out" 85
        [⟨"p.png", "p.webp"⟩, ⟨"q.png", "q.webp"⟩]).events = [50, 100] := by
  refine ⟨by decide, ?_, ?_⟩
  · rw [(spec_C3_amended wEnvFail "medium" [⟨"a.mp4", "o1"⟩, ⟨"b.mp4", "o2"⟩, ⟨"c.mp4", "o3"⟩]
        iEnvOk "out" 85 [⟨"p.png", "p.webp"⟩] (by decide) (by decide)).1.1]
    decide
  · rw [(spec_C3_amended wEnvFail "medium" [⟨"a.mp4", "o1"⟩]
        iEnvOk "out" 85 [⟨"p.png", "p.webp"⟩, ⟨"q.png", "q.webp"⟩] (by decide) (by decide)).2.1]
    decide

/-- C3 counterexample: with three items the second progress event carries
`int(2/3*100) = 66`, while the claimed `round(100*2/3)` is 67. -/
theorem spec_C3_counterexample :
    (percentsOf (VideoCompressionWorker.run wEnvFail "medium"
        [⟨"a.mp4", "o1"⟩, ⟨"b.mp4", "o2"⟩, ⟨"c.mp4", "o3"⟩]).events).get? 1 = some 66
    ∧ roundHalfEven ((100 * 2 : ℚ) / 3) = 67
    ∧ (66 : ℤ) ≠ 67 := by
  refine ⟨by decide, ?_, by decide⟩
  unfold roundHalfEven
  norm_num

/-! ### Decimal digits: `Nat.repr` is injective -/

lemma toDigitsCore_eq (n : Nat) :
    ∀ fuel ds, n < fuel → Nat.toDigitsCore 10 fuel n ds = decDigits n ++ ds := by
  induction n using Nat.strong_induction_on with
  | _ n ih =>
    intro fuel ds h
    match fuel with
    | fuel + 1 =>
      simp only [Nat.toDigitsCore]
      by_cases hz : n / 10 = 0
      · have hn : n < 10 := by omega
        rw [if_pos hz, decDigits, if_pos hn, Nat.mod_eq_of_lt hn]
        rfl
      · have hn : ¬n < 10 := by
          intro hlt
          exact hz (Nat.div_eq_of_lt hlt)
        have hdiv : n / 10 < n := Nat.div_lt_self (by omega) (by omega)
        rw [if_neg hz, ih (n / 10) hdiv fuel (Nat.digitChar (n % 10) :: ds) (by omega),
            show decDigits n = decDigits (n / 10) ++ [Nat.digitChar (n % 10)] from by
              rw [decDigits, if_neg hn]]
        simp

lemma toDigits_eq_decDigits (n : Nat) : Nat.toDigits 10 n = decDigits n := by
  rw [Nat.toDigits, toDigitsCore_eq n (n + 1) [] (by omega), List.append_nil]

lemma digitChar_val : ∀ d, d < 10 → (Nat.digitChar d).toNat - 48 = d := by decide

lemma decVal_append_digit (cs : List Char) (c : Char) :
    decVal (cs ++ [c]) = 10 * decVal cs + (c.toNat - 48) := by
  simp [decVal, List.foldl_append]

lemma decVal_decDigits (n : Nat) : decVal (decDigits n) = n := by
  induction n using Nat.strong_induction_on with
  | _ n ih =>
    by_cases hn : n < 10
    · rw [decDigits, if_pos hn]
      simp [decVal, digitChar_val n hn]
    · have hdiv : n / 10 < n := Nat.div_lt_self (by omega) (by omega)
      rw [decDigits, if_neg hn, decVal_append_digit, ih (n / 10) hdiv,
          digitChar_val (n % 10) (Nat.mod_lt n (by omega))]
      omega

lemma decDigits_injective {m n : Nat} (h : decDigits m = decDigits n) : m = n := by
  have hm := decVal_decDigits m
  rw [h, decVal_decDigits] at hm
  exact hm.symm

lemma repr_data (n : Nat) : (Nat.repr n).data = decDigits n := by
  rw [Nat.repr, ← toDigits_eq_decDigits]
  rfl

lemma repr_injective {m n : Nat} (h : Nat.repr m = Nat.repr n) : m = n := by
  apply decDigits_injective
  rw [← repr_data, ← repr_data, h]

lemma string_append_data (a b : String) : (a ++ b).data = a.data ++ b.data := rfl

lemma webpCandidate_inj (base : String) {c₁ c₂ : Nat}
    (h : webpCandidate base c₁ = webpCandidate base c₂) : c₁ = c₂ := by
  unfold webpCandidate at h
  have hd := congrArg String.data h
  simp only [string_append_data] at hd
  have h1 := List.append_cancel_right hd
  have h2 := List.append_cancel_left h1
  exact decDigits_injective (by rw [← repr_data, ← repr_data, h2])

lemma mp4Candidate_inj (base : String) {c₁ c₂ : Nat}
    (h : mp4Candidate base c₁ = mp4Candidate base c₂) : c₁ = c₂ := by
  unfold mp4Candidate at h
  have hd := congrArg String.data h
  simp only [string_append_data] at hd
  have h1 := List.append_cancel_right hd
  have h2 := List.append_cancel_left h1
  exact decDigits_injective (by rw [← repr_data, ← repr_data, h2])

lemma collisionLoop_shape (cand : Nat → String) (ex : List String) :
    ∀ fuel counter, ∃ c, collisionLoop cand ex fuel counter = cand c := by
  intro fuel
  induction fuel with
  | zero => intro counter; exact ⟨counter, rfl⟩
  | succ fuel ih =>
      intro counter
      by_cases hc : cand counter ∈ ex
      · simpa [collisionLoop, hc] using ih (counter + 1)
      · exact ⟨counter, by simp [collisionLoop, hc]⟩

lemma collisionLoop_not_mem (cand : Nat → String) (ex : List String) :
    ∀ fuel counter, (∃ i, i < fuel ∧ cand (counter + i) ∉ ex) →
      collisionLoop cand ex fuel counter ∉ ex := by
  intro fuel
  induction fuel with
  | zero =>
      intro counter h
      obtain ⟨i, hi, -⟩ := h
      omega
  | succ fuel ih =>
      intro counter h
      by_cases hc : cand counter ∈ ex
      · simp only [collisionLoop, if_pos hc]
        apply ih (counter + 1)
        obtain ⟨i, hi, hni⟩ := h
        match i with
        | 0 => exact absurd hc (by simpa using hni)
        | j + 1 =>
            exact ⟨j, by omega, by
              have : counter + 1 + j = counter + (j + 1) := by omega
              rw [this]; exact hni⟩
      · simp [collisionLoop, hc]

lemma exists_free_candidate (cand : Nat → String)
    (hinj : ∀ {c₁ c₂ : Nat}, cand c₁ = cand c₂ → c₁ = c₂)
    (ex : List String) (counter : Nat) :
    ∃ i, i < ex.length + 1 ∧ cand (counter + i) ∉ ex := by
  by_contra hall
  push_neg at hall
  have hsub : ((List.range (ex.length + 1)).map (fun i => cand (counter + i))) ⊆ ex := by
    intro x hx
    obtain ⟨i, hi, hix⟩ := List.mem_map.mp hx
    exact hix ▸ hall i (List.mem_range.mp hi)
  have hnd : ((List.range (ex.length + 1)).map (fun i => cand (counter + i))).Nodup := by
    refine List.Nodup.map ?_ (List.nodup_range _)
    intro a b hab
    have := hinj hab
    omega
  have hle := (List.subperm_of_subset hnd hsub).length_le
  simp at hle

lemma generate_output_name_not_mem (f : String) (ex : List String) :
    generate_output_name f ex ∉ ex := by
  unfold generate_output_name
  by_cases h : (splitextRoot f ++ ".webp") ∈ ex
  · simp only [if_pos h]
    apply collisionLoop_not_mem
    obtain ⟨i, hi, hni⟩ :=
      exists_free_candidate (webpCandidate (splitextRoot f))
        (fun hcc => webpCandidate_inj (splitextRoot f) hcc) ex 1
    exact ⟨i, hi, hni⟩
  · simp [h]

lemma generate_video_output_name_not_mem (f : String) (ex : List String) :
    generate_video_output_name f ex ∉ ex := by
  unfold generate_video_output_name
  by_cases h : (splitextRoot f ++ "_compressed.mp4") ∈ ex
  · simp only [if_pos h]
    apply collisionLoop_not_mem
    obtain ⟨i, hi, hni⟩ :=
      exists_free_candidate (mp4Candidate (splitextRoot f))
        (fun hcc => mp4Candidate_inj (splitextRoot f) hcc) ex 1
    exact ⟨i, hi, hni⟩
  · simp [h]

lemma generate_output_name_suffix (f : String) (ex : List String) :
    ∃ pre, generate_output_name f ex = pre ++ ".webp" := by
  unfold generate_output_name
  by_cases h : (splitextRoot f ++ ".webp") ∈ ex
  · simp only [if_pos h]
    obtain ⟨c, hc⟩ := collisionLoop_shape (webpCandidate (splitextRoot f)) ex (ex.length + 1) 1
    exact ⟨splitextRoot f ++ "_" ++ Nat.repr c, by rw [hc]; rfl⟩
  · exact ⟨splitextRoot f, by simp [h]⟩

lemma generate_video_output_name_suffix (f : String) (ex : List String) :
    ∃ pre, generate_video_output_name f ex = pre ++ "_compressed.mp4" := by
  unfold generate_video_output_name
  by_cases h : (splitextRoot f ++ "_compressed.mp4") ∈ ex
  · simp only [if_pos h]
    obtain ⟨c, hc⟩ := collisionLoop_shape (mp4Candidate (splitextRoot f)) ex (ex.length + 1) 1
    exact ⟨splitextRoot f ++ "_" ++ Nat.repr c, by rw [hc]; rfl⟩
  · exact ⟨splitextRoot f, by simp [h]⟩

lemma resolveAll_length (gen : String → List String → String) :
    ∀ (files : List String) (ex : List String),
      (resolveAll gen ex files).length = files.length := by
  intro files
  induction files with
  | nil => intro ex; rfl
  | cons f fs ih => intro ex; simp [resolveAll, ih]

lemma resolveAll_fresh (gen : String → List String → String)
    (hgen : ∀ f ex, gen f ex ∉ ex) :
    ∀ (files : List String) (ex : List String),
      (resolveAll gen ex files).Nodup
      ∧ ∀ x ∈ resolveAll gen ex files, x ∉ ex := by
  intro files
  induction files with
  | nil => intro ex; simp [resolveAll]
  | cons f fs ih =>
      intro ex
      obtain ⟨ihnd, ihfresh⟩ := ih (ex ++ [gen f ex])
      constructor
      · rw [resolveAll, List.nodup_cons]
        refine ⟨fun hmem => ?_, ihnd⟩
        exact ihfresh (gen f ex) hmem (by simp)
      · intro x hx
        rcases List.mem_cons.mp hx with hx | hx
        · exact hx ▸ hgen f ex
        · intro hxex
          exact ihfresh x hx (List.mem_append_left _ hxex)

lemma resolveAll_suffix (gen : String → List String → String) (suffix : String)
    (hgen : ∀ f ex, ∃ pre, gen f ex = pre ++ suffix) :
    ∀ (files : List String) (ex : List String) (x : String),
      x ∈ resolveAll gen ex files → ∃ pre, x = pre ++ suffix := by
  intro files
  induction files with
  | nil => intro ex x hx; simp [resolveAll] at hx
  | cons f fs ih =>
      intro ex x hx
      rcases List.mem_cons.mp hx with hx | hx
      · exact hx ▸ hgen f ex
      · exact ih (ex ++ [gen f ex]) x hx

/-- C4: resolving a whole batch of filenames sequentially (each committed
name joining the set before the next call) yields pairwise-distinct
output names, every one ending in the batch's fixed target suffix
(`.webp` for images, `_compressed.mp4` for videos); `a.png` then `a.jpg`
resolve to `a.webp` then `a_1.webp`. -/
theorem spec_C4 (existing files : List String) :
    ((resolveAll generate_output_name existing files).length = files.length
     ∧ (resolveAll generate_output_name existing files).Nodup
     ∧ ∀ x ∈ resolveAll generate_output_name existing files, ∃ pre, x = pre ++ ".webp")
    ∧ ((resolveAll generate_video_output_name existing files).length = files.length
     ∧ (resolveAll generate_video_output_name existing files).Nodup
     ∧ ∀ x ∈ resolveAll generate_video_output_name existing files,
         ∃ pre, x = pre ++ "_compressed.mp4")
    ∧ resolveAll generate_output_name [] ["a.png", "a.jpg"] = ["a.webp", "a_1.webp"] := by
  refine ⟨⟨resolveAll_length _ files existing, ?_, ?_⟩,
          ⟨resolveAll_length _ files existing, ?_, ?_⟩, ?_⟩
  · exact (resolveAll_fresh _ generate_output_name_not_mem files existing).1
  · exact fun x hx => resolveAll_suffix _ ".webp" generate_output_name_suffix files existing x hx
  · exact (resolveAll_fresh _ generate_video_output_name_not_mem files existing).1
  · exact fun x hx =>
      resolveAll_suffix _ "_compressed.mp4" generate_video_output_name_suffix files existing x hx
  · decide

theorem spec_C4_witness :
    ("a.webp" ∈ resolveAll generate_output_name [] ["a.png", "a.jpg"])
    ∧ ∃ pre, "a.webp" = pre ++ ".webp" :=
  ⟨by decide,
   (spec_C4 [] ["a.png", "a.jpg"]).1.2.2 "a.webp" (by decide)⟩

/-- C9: an image whose mode is RGBA or LA, or P with a transparency
table, is converted to RGBA before encoding; the save call is lossy WebP
at the given quality; a successful image item records no size or ratio
metrics and a failed one carries the caught error's message verbatim. -/
theorem spec_C9 (img : PILImage) (outp : String) (q : Nat)
    (env : ImgEnv) (dir : String) (iq : Nat) (fi : IFileInfo)
    (halpha : img.mode = "RGBA" ∨ img.mode = "LA"
        ∨ (img.mode = "P" ∧ img.hasTransparency = true)) :
    (imageSaveCall img outp q).img.mode = "RGBA"
    ∧ (imageSaveCall img outp q).format = "WEBP"
    ∧ (imageSaveCall img outp q).lossless = false
    ∧ (imageSaveCall img outp q).quality = q
    ∧ (imageProcessItem env iq fi.path (joinPath dir fi.output_name) = Except.ok () →
        imageItemResult env dir iq fi
          = { success := true, output := some (joinPath dir fi.output_name),
              input_size := none, output_size := none, compression_ratio := none,
              error := none })
    ∧ (∀ e, imageProcessItem env iq fi.path (joinPath dir fi.output_name) = Except.error e →
        imageItemResult env dir iq fi = { success := false, error := some e }) := by
  refine ⟨?_, ?_, ?_, ?_, ?_, ?_⟩
  · unfold imageSaveCall
    rw [if_pos halpha]
  · rfl
  · rfl
  · rfl
  · intro h
    unfold imageItemResult
    rw [h]
  · intro e h
    unfold imageItemResult
    rw [h]

theorem spec_C9_witness :
    ((PILImage.mk "P" true).mode = "RGBA" ∨ (PILImage.mk "P" true).mode = "LA"
      ∨ ((PILImage.mk "P" true).mode = "P" ∧ (PILImage.mk "P" true).hasTransparency = true))
    ∧ (imageSaveCall (PILImage.mk "P" true) "o.webp" 85).img.mode = "RGBA"
    ∧ imageItemResult iEnvOk "out" 85 ⟨"p.png", "p.webp"⟩
        = { success := true, output := some (joinPath "out" "p.webp"),
            input_size := none, output_size := none, compression_ratio := none,
            error := none } :=
  ⟨by decide,
   (spec_C9 (PILImage.mk "P" true) "o.webp" 85 iEnvOk "out" 85 ⟨"p.png", "p.webp"⟩
      (by decide)).1,
   (spec_C9 (PILImage.mk "P" true) "o.webp" 85 iEnvOk "out" 85 ⟨"p.png", "p.webp"⟩
      (by decide)).2.2.2.2.1 rfl⟩
